import Mathlib

/-!
Verification development for the simulated-annealing library in
src/simanneal/anneal.py.  The Python module is shallowly embedded:

* machine floats are idealised as real numbers, with math.exp and math.log
  rendered as Real.exp and Real.log;
* the caller-supplied problem subclass (its move, energy and optional revert
  methods) is a record of functions; move is indexed by the current move-call
  count so that distinct calls of the randomised move may differ;
* random.random() is an arbitrary stream of draws, indexed the same way;
* fallible Python code (raised exceptions) is rendered with Except;
* file I/O on the optional trace file is recorded as a list of file events so
  that the open/close discipline of the driver is observable;
* wall-clock time is irrelevant to every modelled computation except auto's
  duration estimate, where the elapsed time is taken as an input.
-/

namespace Simanneal

/-- The Python exceptions that the embedded code can raise.
attributeError: attribute lookup failure; runtimeError: the RuntimeError
raised by copy_state; exception: the bare Exception raised by anneal for a
non-positive tmin; valueError: math.log on a non-positive argument;
outOfFuel: a fuel bound for auto's unbounded while loops was exhausted
(the Python code would still be looping). -/
inductive PyErr : Type
  | attributeError
  | runtimeError
  | exception
  | valueError
  | outOfFuel
deriving DecidableEq

/-- The frozen dataclass AnnealerParams with its defaults. -/
structure AnnealerParams where
  steps : ℕ
  tmax : ℝ
  tmin : ℝ
  copy_strategy : String := "deepcopy"
  pos : ℕ := 0
  updates : ℕ := 100
  output_file : String := ""

/-- The problem capability a subclass supplies: move mutates the state and
returns the energy delta (here: returns the new state and the delta, indexed
by the move-call count), energy computes the absolute energy of a state.
revert is modelled as an optional marker: the class body of Annealer defines
no revert method, so a subclass that does not define one makes the lookup
self.revert() raise AttributeError; a defined revert only undoes side state
beyond the state object, which the embedding does not carry, hence Unit. -/
structure Problem (σ : Type) where
  move : ℕ → σ → σ × ℝ
  energy : σ → ℝ
  revert : Option Unit := none

/-- The fields __init__ gives an Annealer object (the timing field start is
not modelled; it never influences a modelled value). -/
structure Annealer (σ : Type) where
  params : AnnealerParams
  best_state : Option σ := none
  best_energy : Option ℝ := none
  state : σ

/-- copy_state from anneal.py.  States are immutable values here, so each of
the three recognised strategies returns the state itself; an unrecognised
strategy raises RuntimeError exactly as the final else branch does. -/
def copy_state {σ : Type} (copy_strategy : String) (state : σ) : Except PyErr σ :=
  if copy_strategy = "deepcopy" then .ok state
  else if copy_strategy = "slice" then .ok state
  else if copy_strategy = "method" then .ok state
  else .error .runtimeError

/-- The three copy strategies copy_state recognises. -/
def validStrategy (c : String) : Prop :=
  c = "deepcopy" ∨ c = "slice" ∨ c = "method"

instance (c : String) : Decidable (validStrategy c) := by
  unfold validStrategy
  infer_instance

/-- Left-pad a string to the given width with the given character, as the
%4i and %02i format specifiers of time_string do for non-negative values. -/
def padLeft (s : String) (c : Char) (w : ℕ) : String :=
  String.mk (List.replicate (w - s.length) c) ++ s

/-- time_string from anneal.py for a whole number of seconds (on an integral
input the leading int(round(seconds)) is the identity).  Python divmod floors,
hence Int.fdiv and Int.fmod. -/
def time_string (seconds : ℤ) : String :=
  let h := seconds.fdiv 3600
  let r := seconds.fmod 3600
  let m := r.fdiv 60
  let s := r.fmod 60
  padLeft (toString h) ' ' 4 ++ ":" ++ padLeft (toString m) '0' 2 ++ ":" ++
    padLeft (toString s) '0' 2

/-- Python round(x, ndigits) on floats, idealised over the reals as rounding
x * 10 ^ ndigits to the nearest integer.  Python rounds exact halves to even;
no modelled claim exercises a tie. -/
noncomputable def pyRound (x : ℝ) (ndigits : ℤ) : ℝ :=
  (round (x * (10 : ℝ) ^ ndigits) : ℤ) / (10 : ℝ) ^ ndigits

/-- round_figures from anneal.py: x rounded to n significant figures. -/
noncomputable def round_figures (x : ℝ) (n : ℤ) : ℝ :=
  pyRound x (n - ⌈Real.logb 10 |x|⌉)

/-- Python int() applied to a float: truncation toward zero. -/
noncomputable def pyInt (x : ℝ) : ℤ :=
  if 0 ≤ x then ⌊x⌋ else ⌈x⌉

/-- The cooling exponent Tfactor = -log(tmax / tmin) precomputed by anneal. -/
noncomputable def Tfactor (tmax tmin : ℝ) : ℝ :=
  -Real.log (tmax / tmin)

/-- The temperature schedule of the annealing loop:
T = tmax * exp(Tfactor * step / steps). -/
noncomputable def coolingT (tmax tmin : ℝ) (step steps : ℕ) : ℝ :=
  tmax * Real.exp (Tfactor tmax tmin * step / steps)

/-- The per-step Metropolis rejection condition exactly as the source tests
it: dE > 0.0 and math.exp(-dE / T) < random.random(), with u the drawn
value. -/
def metropolisReject (dE T u : ℝ) : Prop :=
  0 < dE ∧ Real.exp (-dE / T) < u

noncomputable instance (dE T u : ℝ) : Decidable (metropolisReject dE T u) := by
  unfold metropolisReject
  infer_instance

/-- Modelled from the spec: the spec words the Metropolis test as rejecting
when dE > 0 and the drawn value is not less than exp(-dE / T).  Stated here
only to be compared against metropolisReject, which follows the source. -/
def specMetropolisReject (dE T u : ℝ) : Prop :=
  0 < dE ∧ ¬(u < Real.exp (-dE / T))

/-- One event on the optional trace file.  opened and header happen when
anneal opens the file and writes the column header; record is the per-step
line (the numeric fields are recorded unrounded; the source rounds them only
for display); closed would be an explicit close of the file. -/
inductive FileEvent : Type
  | opened
  | header
  | record (step : ℕ) (temp energy new_energy best_energy : ℝ) (accepted : Bool)
  | closed

/-- The loop-local run state of anneal: the step counter, current
temperature, working state (self.state), running energy E, last accepted
snapshot (prevState, prevEnergy), best snapshot (self.best_state,
self.best_energy), the trials/accepts/improves counters, and the trace-file
events so far. -/
structure RunState (σ : Type) where
  step : ℕ
  T : ℝ
  state : σ
  E : ℝ
  prevState : σ
  prevEnergy : ℝ
  best_state : σ
  best_energy : ℝ
  trials : ℕ
  accepts : ℕ
  improves : ℕ
  events : List FileEvent

/-- One iteration of anneal's while loop, lines 176-205 of anneal.py:
advance the step counter, recompute T, call move, accumulate E += dE, count
the trial, append the trace record when a trace file is configured, then
either reject (restore the previous snapshot via copy_state, call the revert
hook - AttributeError if the subclass defines none - and reset E) or accept
(update the previous snapshot, count accept/improve, and update the best
snapshot when E strictly improves it).  An exception carries the run state
at the moment of the raise. -/
noncomputable def annealStep {σ : Type} (P : Problem σ) (ps : AnnealerParams)
    (u : ℕ → ℝ) (rs : RunState σ) : Except (PyErr × RunState σ) (RunState σ) :=
  let step := rs.step + 1
  let T := coolingT ps.tmax ps.tmin step ps.steps
  let s1 := (P.move step rs.state).1
  let dE := (P.move step rs.state).2
  let E1 := rs.E + dE
  let trials := rs.trials + 1
  if metropolisReject dE T (u step) then
    let ev1 := if ps.output_file ≠ "" then
      rs.events ++ [FileEvent.record step T rs.prevEnergy E1 rs.best_energy false]
    else rs.events
    match copy_state ps.copy_strategy rs.prevState with
    | .error e =>
      .error (e,
        { rs with
          step := step
          T := T
          state := s1
          E := E1
          trials := trials
          events := ev1 })
    | .ok prevCopy =>
      match P.revert with
      | none =>
        .error (.attributeError,
          { rs with
            step := step
            T := T
            state := prevCopy
            E := E1
            trials := trials
            events := ev1 })
      | some _ =>
        .ok
          { rs with
            step := step
            T := T
            state := prevCopy
            E := rs.prevEnergy
            trials := trials
            events := ev1 }
  else
    let ev1 := if ps.output_file ≠ "" then
      rs.events ++ [FileEvent.record step T rs.prevEnergy E1 rs.best_energy true]
    else rs.events
    let accepts := rs.accepts + 1
    let improves := if dE < 0 then rs.improves + 1 else rs.improves
    match copy_state ps.copy_strategy s1 with
    | .error e =>
      .error (e,
        { rs with
          step := step
          T := T
          state := s1
          E := E1
          trials := trials
          accepts := accepts
          improves := improves
          events := ev1 })
    | .ok prevCopy =>
      if E1 < rs.best_energy then
        match copy_state ps.copy_strategy s1 with
        | .error e =>
          .error (e,
            { rs with
              step := step
              T := T
              state := s1
              E := E1
              prevState := prevCopy
              prevEnergy := E1
              trials := trials
              accepts := accepts
              improves := improves
              events := ev1 })
        | .ok bestCopy =>
          .ok
            { rs with
              step := step
              T := T
              state := s1
              E := E1
              prevState := prevCopy
              prevEnergy := E1
              best_state := bestCopy
              best_energy := E1
              trials := trials
              accepts := accepts
              improves := improves
              events := ev1 }
      else
        .ok
          { rs with
            step := step
            T := T
            state := s1
            E := E1
            prevState := prevCopy
            prevEnergy := E1
            trials := trials
            accepts := accepts
            improves := improves
            events := ev1 }

/-- Lines 206-209 of anneal.py: when more than one progress update is
requested and the step crossed an update-window boundary, the progress
callback fires (pure logging, not modelled) and the trials/accepts/improves
counters reset.  Python's step // updateWavelength on a float is the real
floor. -/
noncomputable def updateReset {σ : Type} (ps : AnnealerParams) (rs : RunState σ) :
    RunState σ :=
  if 1 < ps.updates ∧
      ⌊((rs.step : ℝ) - 1) / ((ps.steps : ℝ) / (ps.updates : ℝ))⌋ <
        ⌊(rs.step : ℝ) / ((ps.steps : ℝ) / (ps.updates : ℝ))⌋ then
    { rs with trials := 0, accepts := 0, improves := 0 }
  else rs

/-- The whole while loop of anneal: n remaining iterations of annealStep,
each followed by the update-window counter reset. -/
noncomputable def runSteps {σ : Type} (P : Problem σ) (ps : AnnealerParams)
    (u : ℕ → ℝ) : ℕ → RunState σ → Except (PyErr × RunState σ) (RunState σ)
  | 0, rs => .ok rs
  | n + 1, rs =>
    match annealStep P ps u rs with
    | .error e => .error e
    | .ok rs1 => runSteps P ps u n (updateReset ps rs1)

/-- What a call of anneal leaves behind: the trace-file events, the fields of
the Annealer object after the call (also after an uncaught exception, since
Python keeps the mutations made so far), and either the returned
(best_state, best_energy) pair or the exception raised. -/
structure AnnealOutput (σ : Type) where
  events : List FileEvent
  core : Annealer σ
  result : Except PyErr (σ × ℝ)

/-- anneal from anneal.py.  With params = None the body skips the self.params
assignment and immediately evaluates params.output_file on None, an
AttributeError, before anything else happens.  Otherwise: install the params,
open the trace file and write the header when an output path is configured,
raise the bare Exception when tmin <= 0, raise ValueError when
math.log(tmax / tmin) is taken of a non-positive quotient, snapshot the
initial state and energy as both the previous and the best pair, run the
loop, set self.state to a copy of the best state and return the best pair.
No close of the trace file appears anywhere in the source, so no closed
event is ever emitted. -/
noncomputable def anneal {σ : Type} (a : Annealer σ) (P : Problem σ) (u : ℕ → ℝ)
    (params : Option AnnealerParams) : AnnealOutput σ :=
  match params with
  | none => { events := [], core := a, result := .error .attributeError }
  | some p =>
    let a1 : Annealer σ := { a with params := p }
    let ev0 : List FileEvent :=
      if p.output_file ≠ "" then [FileEvent.opened, FileEvent.header] else []
    if p.tmin ≤ 0 then { events := ev0, core := a1, result := .error .exception }
    else if p.tmax / p.tmin ≤ 0 then
      { events := ev0, core := a1, result := .error .valueError }
    else
      let E0 := P.energy a1.state
      match copy_state p.copy_strategy a1.state with
      | .error e => { events := ev0, core := a1, result := .error e }
      | .ok prev0 =>
        match copy_state p.copy_strategy a1.state with
        | .error e => { events := ev0, core := a1, result := .error e }
        | .ok best0 =>
          let a2 : Annealer σ :=
            { a1 with best_state := some best0, best_energy := some E0 }
          let rs0 : RunState σ :=
            { step := 0, T := p.tmax, state := a2.state, E := E0,
              prevState := prev0, prevEnergy := E0, best_state := best0,
              best_energy := E0, trials := 0, accepts := 0, improves := 0,
              events := ev0 }
          match runSteps P p u p.steps rs0 with
          | .error (e, rs) =>
            { events := rs.events
              core :=
                { a2 with
                  best_state := some rs.best_state
                  best_energy := some rs.best_energy
                  state := rs.state }
              result := .error e }
          | .ok rs =>
            match copy_state p.copy_strategy rs.best_state with
            | .error e =>
              { events := rs.events
                core :=
                  { a2 with
                    best_state := some rs.best_state
                    best_energy := some rs.best_energy
                    state := rs.state }
                result := .error e }
            | .ok finalCopy =>
              { events := rs.events
                core :=
                  { a2 with
                    best_state := some rs.best_state
                    best_energy := some rs.best_energy
                    state := finalCopy }
                result := .ok (rs.best_state, rs.best_energy) }

/-- The loop state of auto's inner run(T, steps) probe: working state,
running energy, last accepted snapshot, accept/improve counters, and k, the
move-call counter that indexes the move and random streams and counts the
steps auto has spent (in auto every loop iteration makes exactly one move
call, so k is also auto's step total). -/
structure ProbeState (σ : Type) where
  state : σ
  E : ℝ
  prevState : σ
  prevEnergy : ℝ
  accepts : ℕ
  improves : ℕ
  k : ℕ

/-- One iteration of the for loop inside auto's run: move, recompute the
absolute energy, take dE against the previous accepted energy, then the same
Metropolis test as the driver (restore-and-revert on rejection, snapshot on
acceptance). -/
noncomputable def autoRunStep {σ : Type} (P : Problem σ) (strategy : String)
    (u : ℕ → ℝ) (T : ℝ) (st : ProbeState σ) : Except PyErr (ProbeState σ) :=
  let s1 := (P.move st.k st.state).1
  let E1 := P.energy s1
  let dE := E1 - st.prevEnergy
  if metropolisReject dE T (u st.k) then
    match copy_state strategy st.prevState with
    | .error e => .error e
    | .ok prevCopy =>
      match P.revert with
      | none => .error .attributeError
      | some _ =>
        .ok { st with state := prevCopy, E := st.prevEnergy, k := st.k + 1 }
  else
    match copy_state strategy s1 with
    | .error e => .error e
    | .ok prevCopy =>
      .ok
        { st with
          state := s1
          E := E1
          prevState := prevCopy
          prevEnergy := E1
          accepts := st.accepts + 1
          improves := if dE < 0 then st.improves + 1 else st.improves
          k := st.k + 1 }

/-- The for loop of auto's run, n iterations. -/
noncomputable def autoRunLoop {σ : Type} (P : Problem σ) (strategy : String)
    (u : ℕ → ℝ) (T : ℝ) : ℕ → ProbeState σ → Except PyErr (ProbeState σ)
  | 0, st => .ok st
  | n + 1, st =>
    match autoRunStep P strategy u T st with
    | .error e => .error e
    | .ok st1 => autoRunLoop P strategy u T n st1

/-- auto's local run(T, steps): anneal at constant temperature for steps
moves and return the final state, energy, acceptance rate, improvement rate
and the advanced move-call counter. -/
noncomputable def autoRun {σ : Type} (P : Problem σ) (strategy : String)
    (u : ℕ → ℝ) (T : ℝ) (steps : ℕ) (s : σ) (k : ℕ) :
    Except PyErr (σ × ℝ × ℝ × ℝ × ℕ) :=
  let E := P.energy s
  match copy_state strategy s with
  | .error e => .error e
  | .ok prev0 =>
    match autoRunLoop P strategy u T steps
        { state := s, E := E, prevState := prev0, prevEnergy := E,
          accepts := 0, improves := 0, k := k } with
    | .error e => .error e
    | .ok st =>
      .ok (st.state, st.E, (st.accepts : ℝ) / (steps : ℝ),
        (st.improves : ℝ) / (steps : ℝ), st.k)

/-- auto's seed-temperature search: while T == 0.0, move and set T to the
absolute energy change from the initial energy.  The Python loop has no
bound, so it takes fuel; running out of fuel means the Python code would
still be looping. -/
noncomputable def findSeed {σ : Type} (P : Problem σ) (E : ℝ) :
    ℕ → σ → ℕ → Except PyErr (ℝ × σ × ℕ)
  | 0, _, _ => .error .outOfFuel
  | fuel + 1, s, k =>
    let s1 := (P.move k s).1
    let T := |P.energy s1 - E|
    if T = 0 then findSeed P E fuel s1 (k + 1) else .ok (T, s1, k + 1)

/-- auto's first temperature search: while acceptance > 0.98, divide T by
1.5 (rounded to 2 significant figures) and re-probe. -/
noncomputable def hotShrink {σ : Type} (P : Problem σ) (strategy : String)
    (u : ℕ → ℝ) (steps : ℕ) :
    ℕ → ℝ → ℝ → ℝ → σ → ℕ → Except PyErr (ℝ × ℝ × ℝ × σ × ℕ)
  | 0, T, acc, imp, s, k =>
    if acc > 0.98 then .error .outOfFuel else .ok (T, acc, imp, s, k)
  | fuel + 1, T, acc, imp, s, k =>
    if acc > 0.98 then
      let T1 := round_figures (T / 1.5) 2
      match autoRun P strategy u T1 steps s k with
      | .error e => .error e
      | .ok (s1, _, acc1, imp1, k1) => hotShrink P strategy u steps fuel T1 acc1 imp1 s1 k1
    else .ok (T, acc, imp, s, k)

/-- auto's second temperature search: while acceptance < 0.98, multiply T by
1.5 (rounded to 2 significant figures) and re-probe. -/
noncomputable def hotGrow {σ : Type} (P : Problem σ) (strategy : String)
    (u : ℕ → ℝ) (steps : ℕ) :
    ℕ → ℝ → ℝ → ℝ → σ → ℕ → Except PyErr (ℝ × ℝ × ℝ × σ × ℕ)
  | 0, T, acc, imp, s, k =>
    if acc < 0.98 then .error .outOfFuel else .ok (T, acc, imp, s, k)
  | fuel + 1, T, acc, imp, s, k =>
    if acc < 0.98 then
      let T1 := round_figures (T * 1.5) 2
      match autoRun P strategy u T1 steps s k with
      | .error e => .error e
      | .ok (s1, _, acc1, imp1, k1) => hotGrow P strategy u steps fuel T1 acc1 imp1 s1 k1
    else .ok (T, acc, imp, s, k)

/-- auto's cold-end search: while improvement > 0.0, divide T by 1.5
(rounded to 2 significant figures) and re-probe. -/
noncomputable def coldShrink {σ : Type} (P : Problem σ) (strategy : String)
    (u : ℕ → ℝ) (steps : ℕ) :
    ℕ → ℝ → ℝ → σ → ℕ → Except PyErr (ℝ × ℝ × σ × ℕ)
  | 0, T, imp, s, k =>
    if imp > 0 then .error .outOfFuel else .ok (T, imp, s, k)
  | fuel + 1, T, imp, s, k =>
    if imp > 0 then
      let T1 := round_figures (T / 1.5) 2
      match autoRun P strategy u T1 steps s k with
      | .error e => .error e
      | .ok (s1, _, _, imp1, k1) => coldShrink P strategy u steps fuel T1 imp1 s1 k1
    else .ok (T, imp, s, k)

/-- The record auto's final statement tries to build:
a dictionary with keys tmax, tmin, steps (the computed duration) and updates. -/
structure AutoResult where
  tmax : ℝ
  tmin : ℝ
  steps : ℝ
  updates : ℕ

/-- The attribute names an Annealer object has: the instance attributes set
by __init__ and the methods of the class body. -/
def annealerAttrs : List String :=
  ["params", "best_state", "best_energy", "start", "state",
   "move", "energy", "copy_state", "update", "default_update", "anneal", "auto"]

/-- The attribute lookup self.updates performed by auto's return statement.
The name updates is not among the attributes of an Annealer (the update
count lives at self.params.updates, which the value branch reports), so the
lookup raises AttributeError. -/
def selfUpdatesLookup {σ : Type} (a : Annealer σ) : Except PyErr ℕ :=
  if "updates" ∈ annealerAttrs then .ok a.params.updates
  else .error .attributeError

/-- auto from anneal.py: find a nonzero seed temperature, probe once, run
the two hot-end searches (Tmax is the T after them) and the cold-end search
(Tmin), compute duration = round_figures(int(60 * minutes * step / elapsed), 2)
with step the number of moves spent and elapsed the measured wall-clock
time (an input here), and finally build the result dictionary, whose updates
entry reads self.updates. -/
noncomputable def auto {σ : Type} (a : Annealer σ) (P : Problem σ) (u : ℕ → ℝ)
    (minutes : ℝ) (steps : ℕ) (elapsed : ℝ) (fuel : ℕ) :
    Except PyErr AutoResult :=
  let strategy := a.params.copy_strategy
  let E0 := P.energy a.state
  match findSeed P E0 fuel a.state 0 with
  | .error e => .error e
  | .ok (T0, s0, k0) =>
    match autoRun P strategy u T0 steps s0 k0 with
    | .error e => .error e
    | .ok (s1, _, acc1, imp1, k1) =>
      match hotShrink P strategy u steps fuel T0 acc1 imp1 s1 k1 with
      | .error e => .error e
      | .ok (T2, acc2, imp2, s2, k2) =>
        match hotGrow P strategy u steps fuel T2 acc2 imp2 s2 k2 with
        | .error e => .error e
        | .ok (T3, _, imp3, s3, k3) =>
          match coldShrink P strategy u steps fuel T3 imp3 s3 k3 with
          | .error e => .error e
          | .ok (T4, _, _, k4) =>
            let duration :=
              round_figures ((pyInt (60 * minutes * (k4 : ℝ) / elapsed) : ℤ) : ℝ) 2
            match selfUpdatesLookup a with
            | .error e => .error e
            | .ok upd =>
              .ok { tmax := T3, tmin := T4, steps := duration, updates := upd }

/-! Helper lemmas shared by several claims. -/

lemma copy_state_of_valid {σ : Type} {c : String} (h : validStrategy c) (s : σ) :
    copy_state c s = .ok s := by
  rcases h with h | h | h <;> subst h <;> rfl

lemma selfUpdatesLookup_error {σ : Type} (a : Annealer σ) :
    selfUpdatesLookup a = .error .attributeError := rfl

/-- The rejected branch of annealStep, as a single equation: with a valid
copy strategy and a revert hook present, a step whose Metropolis test fires
restores the previous snapshot into the working state, resets E, and leaves
the accepted snapshot, the best snapshot and the accept/improve counters
untouched. -/
lemma annealStep_rejected {σ : Type} (P : Problem σ) (ps : AnnealerParams)
    (u : ℕ → ℝ) (rs : RunState σ) (hv : validStrategy ps.copy_strategy)
    (hr : P.revert = some ())
    (hrej : metropolisReject ((P.move (rs.step + 1) rs.state).2)
      (coolingT ps.tmax ps.tmin (rs.step + 1) ps.steps) (u (rs.step + 1))) :
    annealStep P ps u rs =
      .ok
        { rs with
          step := rs.step + 1
          T := coolingT ps.tmax ps.tmin (rs.step + 1) ps.steps
          state := rs.prevState
          E := rs.prevEnergy
          trials := rs.trials + 1
          events := if ps.output_file ≠ "" then
              rs.events ++ [FileEvent.record (rs.step + 1)
                (coolingT ps.tmax ps.tmin (rs.step + 1) ps.steps) rs.prevEnergy
                (rs.E + (P.move (rs.step + 1) rs.state).2) rs.best_energy false]
            else rs.events } := by
  unfold annealStep
  dsimp only
  rw [if_pos hrej, copy_state_of_valid hv, hr]

/-- The accepted branch of annealStep, as a single equation: with a valid
copy strategy, a step whose Metropolis test does not fire keeps the moved-to
state, makes it the new accepted snapshot, counts the accept (and the
improve when dE < 0), and updates the best snapshot exactly when the new
running energy strictly beats it. -/
lemma annealStep_accepted {σ : Type} (P : Problem σ) (ps : AnnealerParams)
    (u : ℕ → ℝ) (rs : RunState σ) (hv : validStrategy ps.copy_strategy)
    (hacc : ¬ metropolisReject ((P.move (rs.step + 1) rs.state).2)
      (coolingT ps.tmax ps.tmin (rs.step + 1) ps.steps) (u (rs.step + 1))) :
    annealStep P ps u rs =
      .ok
        { rs with
          step := rs.step + 1
          T := coolingT ps.tmax ps.tmin (rs.step + 1) ps.steps
          state := (P.move (rs.step + 1) rs.state).1
          E := rs.E + (P.move (rs.step + 1) rs.state).2
          prevState := (P.move (rs.step + 1) rs.state).1
          prevEnergy := rs.E + (P.move (rs.step + 1) rs.state).2
          best_state := if rs.E + (P.move (rs.step + 1) rs.state).2 < rs.best_energy
            then (P.move (rs.step + 1) rs.state).1 else rs.best_state
          best_energy := if rs.E + (P.move (rs.step + 1) rs.state).2 < rs.best_energy
            then rs.E + (P.move (rs.step + 1) rs.state).2 else rs.best_energy
          trials := rs.trials + 1
          accepts := rs.accepts + 1
          improves := if (P.move (rs.step + 1) rs.state).2 < 0
            then rs.improves + 1 else rs.improves
          events := if ps.output_file ≠ "" then
              rs.events ++ [FileEvent.record (rs.step + 1)
                (coolingT ps.tmax ps.tmin (rs.step + 1) ps.steps) rs.prevEnergy
                (rs.E + (P.move (rs.step + 1) rs.state).2) rs.best_energy true]
            else rs.events } := by
  unfold annealStep
  dsimp only
  rw [if_neg hacc, copy_state_of_valid hv]
  dsimp only
  split <;> rfl

/-- The schedule formula degenerates to the constant 1 when tmax = tmin = 1,
since then Tfactor = -log 1 = 0. -/
lemma coolingT_one {step steps : ℕ} : coolingT 1 1 step steps = 1 := by
  norm_num [coolingT, Tfactor]

lemma exp_neg_two_lt_half : Real.exp (-2 : ℝ) < 1 / 2 := by
  have h3 : (2 : ℝ) + 1 < Real.exp 2 := Real.add_one_lt_exp (by norm_num)
  rw [Real.exp_neg]
  rw [show (1 : ℝ) / 2 = 2⁻¹ by norm_num]
  apply inv_strictAnti₀ (by norm_num)
  linarith

/-! C9.  time_string(3661). -/

/-- C9, counterexample: time_string applied to 3661 seconds is not the
string claimed by the spec; 3661 seconds is 1 hour, 1 minute and 1 second,
so the hours field is 1, not 0. -/
theorem time_string_3661_counterexample :
    time_string 3661 ≠ "   0:01:01" := by decide

/-- C9, amended: time_string 3661 is exactly "   1:01:01" - hours field 1,
right-aligned with spaces in a width-4 field, minutes and seconds
zero-padded to width 2. -/
theorem time_string_3661_hours_field :
    time_string 3661 = "   1:01:01" := by decide

/-! C10.  anneal with params omitted. -/

/-- C10: anneal called with params = None raises AttributeError immediately:
the driver reads output_file from the passed-in params argument (None), not
from self.params, so whatever default parameter record the core holds, the
call fails before any file, temperature or move activity - no events are
emitted, the core is returned untouched, and the outcome does not depend on
the problem capability at all. -/
theorem anneal_none_params_raises {σ : Type} (a : Annealer σ) (P : Problem σ)
    (u : ℕ → ℝ) :
    anneal a P u none =
      { events := [], core := a, result := .error .attributeError } := rfl

/-! C8.  The exponential cooling schedule. -/

/-- C8: for 0 < tmax, 0 < tmin and a positive step budget, the schedule
T = tmax * exp(Tfactor * step / steps) equals tmax at step 0, equals tmin at
step = steps, and (whenever tmin <= tmax, the cooling case) decays
monotonically in between. -/
theorem cooling_schedule_endpoints (tmax tmin : ℝ) (steps : ℕ)
    (h1 : 0 < tmax) (h2 : 0 < tmin) (h3 : 0 < steps) :
    coolingT tmax tmin 0 steps = tmax ∧
    coolingT tmax tmin steps steps = tmin ∧
    (tmin ≤ tmax →
      ∀ i j : ℕ, i ≤ j → coolingT tmax tmin j steps ≤ coolingT tmax tmin i steps) := by
  have hsteps : ((steps : ℝ)) ≠ 0 := Nat.cast_ne_zero.mpr h3.ne'
  have hspos : (0 : ℝ) < (steps : ℝ) := Nat.cast_pos.mpr h3
  refine ⟨?_, ?_, ?_⟩
  · simp [coolingT]
  · unfold coolingT Tfactor
    rw [mul_div_assoc, div_self hsteps, mul_one, Real.exp_neg,
      Real.exp_log (by positivity)]
    field_simp
  · intro hle i j hij
    unfold coolingT
    have hf : Tfactor tmax tmin ≤ 0 := by
      unfold Tfactor
      simp only [neg_nonpos]
      apply Real.log_nonneg
      rw [le_div_iff₀ h2]
      linarith
    apply mul_le_mul_of_nonneg_left _ h1.le
    apply Real.exp_le_exp.mpr
    apply (div_le_div_iff_of_pos_right hspos).mpr
    exact mul_le_mul_of_nonpos_left (by exact_mod_cast hij) hf

/-- C8, witness: the schedule with tmax = 4, tmin = 2 over 3 steps starts at
4, ends at 2, and is monotone. -/
theorem cooling_schedule_endpoints_witness :
    (0 : ℝ) < 4 ∧ (0 : ℝ) < 2 ∧ 0 < 3 ∧
    (coolingT 4 2 0 3 = 4 ∧ coolingT 4 2 3 3 = 2 ∧
      ((2 : ℝ) ≤ 4 →
        ∀ i j : ℕ, i ≤ j → coolingT 4 2 j 3 ≤ coolingT 4 2 i 3)) :=
  ⟨by norm_num, by norm_num, by norm_num,
    cooling_schedule_endpoints 4 2 3 (by norm_num) (by norm_num) (by norm_num)⟩

/-! C3.  auto's return statement. -/

/-- C3: auto can never return its result record.  Its return statement reads
self.updates, an attribute no Annealer has (the update count is stored at
self.params.updates), so every invocation that reaches the return raises
AttributeError, and every other invocation fails earlier (or, in this
fuelled model, runs out of fuel where the Python loops would still be
running).  The claimed contract - returning tmax, tmin, steps, updates - is
never fulfilled. -/
theorem auto_never_returns_ok {σ : Type} (a : Annealer σ) (P : Problem σ)
    (u : ℕ → ℝ) (minutes : ℝ) (steps : ℕ) (elapsed : ℝ) (fuel : ℕ) :
    ∃ e, auto a P u minutes steps elapsed fuel = .error e := by
  unfold auto
  dsimp only
  repeat' split
  any_goals exact ⟨_, rfl⟩
  rename_i upd heq
  rw [selfUpdatesLookup_error] at heq
  simp at heq

/-! C1.  The per-step Metropolis test. -/

/-- C1, amended: in a loop iteration (with a valid copy strategy and a
revert hook present, so the iteration completes) the move is rejected - the
accept counter stays put - if and only if dE > 0 and the drawn value is
strictly greater than exp(-dE / T); at a draw exactly equal to exp(-dE / T)
the move is accepted; and for every step with dE <= 0 the move is accepted:
the accept counter increments and the moved-to state, not any restored one,
becomes the working state and the new accepted snapshot. -/
theorem metropolis_strict_inequality {σ : Type} (P : Problem σ)
    (ps : AnnealerParams) (u : ℕ → ℝ) (rs : RunState σ)
    (hv : validStrategy ps.copy_strategy) (hr : P.revert = some ()) :
    ∃ rs', annealStep P ps u rs = .ok rs' ∧
      (rs'.accepts = rs.accepts ↔
        (0 < (P.move (rs.step + 1) rs.state).2 ∧
          Real.exp (-(P.move (rs.step + 1) rs.state).2 /
              coolingT ps.tmax ps.tmin (rs.step + 1) ps.steps) <
            u (rs.step + 1))) ∧
      ((P.move (rs.step + 1) rs.state).2 ≤ 0 →
        rs'.accepts = rs.accepts + 1 ∧
        rs'.state = (P.move (rs.step + 1) rs.state).1 ∧
        rs'.prevState = (P.move (rs.step + 1) rs.state).1 ∧
        rs'.prevEnergy = rs.E + (P.move (rs.step + 1) rs.state).2) := by
  by_cases hrej : metropolisReject ((P.move (rs.step + 1) rs.state).2)
    (coolingT ps.tmax ps.tmin (rs.step + 1) ps.steps) (u (rs.step + 1))
  · refine ⟨_, annealStep_rejected P ps u rs hv hr hrej, ?_, ?_⟩
    · exact iff_of_true rfl hrej
    · intro hdE
      exact absurd hrej.1 (not_lt.mpr hdE)
  · refine ⟨_, annealStep_accepted P ps u rs hv hrej, ?_, ?_⟩
    · exact iff_of_false (by simp) hrej
    · intro _
      exact ⟨rfl, rfl, rfl, rfl⟩

/-- A concrete problem for the C1 witness: every move lowers the energy by
1, revert is defined. -/
noncomputable def c1Problem : Problem ℝ :=
  { move := fun _ s => (s, -1), energy := fun s => s, revert := some () }

/-- Parameters with tmax = tmin = 1 and one step, used by C1. -/
def c1Params : AnnealerParams :=
  { steps := 1, tmax := 1, tmin := 1 }

/-- A run state at step 0 with everything at zero, used by C1. -/
noncomputable def c1Run : RunState ℝ :=
  { step := 0, T := 1, state := 0, E := 0, prevState := 0, prevEnergy := 0,
    best_state := 0, best_energy := 0, trials := 0, accepts := 0,
    improves := 0, events := [] }

/-- C1, witness: the amended theorem applied to a concrete improving step. -/
theorem metropolis_strict_inequality_witness :
    validStrategy c1Params.copy_strategy ∧ c1Problem.revert = some () ∧
    ∃ rs', annealStep c1Problem c1Params (fun _ => 0) c1Run = .ok rs' ∧
      (rs'.accepts = c1Run.accepts ↔
        (0 < (c1Problem.move (c1Run.step + 1) c1Run.state).2 ∧
          Real.exp (-(c1Problem.move (c1Run.step + 1) c1Run.state).2 /
              coolingT c1Params.tmax c1Params.tmin (c1Run.step + 1) c1Params.steps) <
            (fun _ => (0 : ℝ)) (c1Run.step + 1))) ∧
      ((c1Problem.move (c1Run.step + 1) c1Run.state).2 ≤ 0 →
        rs'.accepts = c1Run.accepts + 1 ∧
        rs'.state = (c1Problem.move (c1Run.step + 1) c1Run.state).1 ∧
        rs'.prevState = (c1Problem.move (c1Run.step + 1) c1Run.state).1 ∧
        rs'.prevEnergy = c1Run.E + (c1Problem.move (c1Run.step + 1) c1Run.state).2) :=
  ⟨Or.inl rfl, rfl,
    metropolis_strict_inequality c1Problem c1Params (fun _ => 0) c1Run (Or.inl rfl) rfl⟩

/-- A problem whose moves raise the energy by 1, revert defined; used by the
C1 counterexample. -/
noncomputable def c1BoundaryProblem : Problem ℝ :=
  { move := fun _ s => (s, 1), energy := fun s => s, revert := some () }

/-- C1, counterexample: with dE = 1 and T = 1 (tmax = tmin = 1), a drawn
value of exactly exp(-1) - a legitimate element of [0, 1) that is not less
than exp(-dE / T) - satisfies the spec-worded rejection condition, yet the
source accepts the move: the accept counter increments and the accepted
energy snapshot moves to the higher energy, because the code rejects only
on a strict inequality exp(-dE / T) < u. -/
theorem metropolis_boundary_counterexample :
    specMetropolisReject 1 (coolingT 1 1 (c1Run.step + 1) 1) (Real.exp (-1)) ∧
    0 ≤ Real.exp (-1) ∧ Real.exp (-1) < 1 ∧
    ∃ rs', annealStep c1BoundaryProblem c1Params (fun _ => Real.exp (-1)) c1Run
        = .ok rs' ∧
      rs'.accepts = c1Run.accepts + 1 ∧ rs'.prevEnergy = c1Run.E + 1 := by
  have hT : coolingT 1 1 (c1Run.step + 1) 1 = 1 := coolingT_one
  have hacc : ¬ metropolisReject
      ((c1BoundaryProblem.move (c1Run.step + 1) c1Run.state).2)
      (coolingT c1Params.tmax c1Params.tmin (c1Run.step + 1) c1Params.steps)
      ((fun _ => Real.exp (-1)) (c1Run.step + 1)) := by
    intro h
    have h2 := h.2
    simp only [c1BoundaryProblem, c1Params] at h2
    rw [hT] at h2
    norm_num at h2
  refine ⟨⟨by norm_num, ?_⟩, (Real.exp_pos _).le, ?_, _,
    annealStep_accepted c1BoundaryProblem c1Params (fun _ => Real.exp (-1))
      c1Run (Or.inl rfl) hacc, rfl, rfl⟩
  · rw [hT]
    norm_num
  · rw [show (-1 : ℝ) = -1 * 1 by ring, Real.exp_lt_one_iff]
    norm_num

/-! C5.  Rejection restores the previous snapshot exactly. -/

/-- C5: in any loop iteration whose Metropolis test fires (with a valid copy
strategy and a revert hook present so that the rejection branch completes),
the resulting working state equals the last accepted snapshot state, the
running energy equals the last accepted energy, and the accepted and best
snapshots are exactly what they were before the rejected move. -/
theorem reject_restores_prev {σ : Type} (P : Problem σ) (ps : AnnealerParams)
    (u : ℕ → ℝ) (rs : RunState σ) (hv : validStrategy ps.copy_strategy)
    (hr : P.revert = some ())
    (hrej : metropolisReject ((P.move (rs.step + 1) rs.state).2)
      (coolingT ps.tmax ps.tmin (rs.step + 1) ps.steps) (u (rs.step + 1))) :
    ∃ rs', annealStep P ps u rs = .ok rs' ∧
      rs'.state = rs.prevState ∧ rs'.E = rs.prevEnergy ∧
      rs'.prevState = rs.prevState ∧ rs'.prevEnergy = rs.prevEnergy ∧
      rs'.best_state = rs.best_state ∧ rs'.best_energy = rs.best_energy :=
  ⟨_, annealStep_rejected P ps u rs hv hr hrej, rfl, rfl, rfl, rfl, rfl, rfl⟩

/-- A problem whose moves raise the energy by 2, revert defined; at T = 1 a
drawn value of 1/2 rejects such a move since exp(-2) < 1/2.  Used by C5. -/
noncomputable def c5Problem : Problem ℝ :=
  { move := fun _ s => (s + 1, 2), energy := fun s => s, revert := some () }

/-- A nonzero run state for C5, so that the restored snapshot is visibly
different from the moved-to state. -/
noncomputable def c5Run : RunState ℝ :=
  { step := 0, T := 1, state := 3, E := 3, prevState := 3, prevEnergy := 3,
    best_state := 3, best_energy := 3, trials := 0, accepts := 0,
    improves := 0, events := [] }

lemma c5_rejects : metropolisReject
    ((c5Problem.move (c5Run.step + 1) c5Run.state).2)
    (coolingT c1Params.tmax c1Params.tmin (c5Run.step + 1) c1Params.steps)
    ((fun _ => (1 : ℝ) / 2) (c5Run.step + 1)) := by
  constructor
  · norm_num [c5Problem]
  · simp only [c5Problem, c1Params]
    rw [coolingT_one]
    norm_num [exp_neg_two_lt_half]

/-- C5, witness: the round-trip theorem applied to a concrete rejected
step. -/
theorem reject_restores_prev_witness :
    validStrategy c1Params.copy_strategy ∧ c5Problem.revert = some () ∧
    metropolisReject ((c5Problem.move (c5Run.step + 1) c5Run.state).2)
      (coolingT c1Params.tmax c1Params.tmin (c5Run.step + 1) c1Params.steps)
      ((fun _ => (1 : ℝ) / 2) (c5Run.step + 1)) ∧
    ∃ rs', annealStep c5Problem c1Params (fun _ => (1 : ℝ) / 2) c5Run = .ok rs' ∧
      rs'.state = c5Run.prevState ∧ rs'.E = c5Run.prevEnergy ∧
      rs'.prevState = c5Run.prevState ∧ rs'.prevEnergy = c5Run.prevEnergy ∧
      rs'.best_state = c5Run.best_state ∧ rs'.best_energy = c5Run.best_energy :=
  ⟨Or.inl rfl, rfl, c5_rejects,
    reject_restores_prev c5Problem c1Params (fun _ => (1 : ℝ) / 2) c5Run
      (Or.inl rfl) rfl c5_rejects⟩

/-! C2.  The revert hook is not optional in this code. -/

/-- C2: the Annealer class body defines no revert method, so for a problem
subclass that supplies only move and energy (revert absent), any loop
iteration whose Metropolis test fires raises AttributeError while restoring:
the working state has already been reset to the previous snapshot when the
self.revert() lookup fails, and the exception propagates out of the step. -/
theorem revert_missing_raises {σ : Type} (P : Problem σ) (ps : AnnealerParams)
    (u : ℕ → ℝ) (rs : RunState σ) (hv : validStrategy ps.copy_strategy)
    (hr : P.revert = none)
    (hrej : metropolisReject ((P.move (rs.step + 1) rs.state).2)
      (coolingT ps.tmax ps.tmin (rs.step + 1) ps.steps) (u (rs.step + 1))) :
    ∃ rs', annealStep P ps u rs = .error (.attributeError, rs') ∧
      rs'.state = rs.prevState ∧ rs'.best_energy = rs.best_energy := by
  unfold annealStep
  dsimp only
  rw [if_pos hrej, copy_state_of_valid hv, hr]
  exact ⟨_, rfl, rfl, rfl⟩

/-- The same problem as c5Problem but with no revert defined, as a subclass
implementing only move and energy; used by C2. -/
noncomputable def c2Problem : Problem ℝ :=
  { move := fun _ s => (s + 1, 2), energy := fun s => s, revert := none }

lemma c2_rejects : metropolisReject
    ((c2Problem.move (c5Run.step + 1) c5Run.state).2)
    (coolingT c1Params.tmax c1Params.tmin (c5Run.step + 1) c1Params.steps)
    ((fun _ => (1 : ℝ) / 2) (c5Run.step + 1)) := by
  constructor
  · norm_num [c2Problem]
  · simp only [c2Problem, c1Params]
    rw [coolingT_one]
    norm_num [exp_neg_two_lt_half]

/-- C2, witness: the AttributeError theorem applied to a concrete rejected
step of a revert-less problem. -/
theorem revert_missing_raises_witness :
    validStrategy c1Params.copy_strategy ∧ c2Problem.revert = none ∧
    metropolisReject ((c2Problem.move (c5Run.step + 1) c5Run.state).2)
      (coolingT c1Params.tmax c1Params.tmin (c5Run.step + 1) c1Params.steps)
      ((fun _ => (1 : ℝ) / 2) (c5Run.step + 1)) ∧
    ∃ rs', annealStep c2Problem c1Params (fun _ => (1 : ℝ) / 2) c5Run
        = .error (.attributeError, rs') ∧
      rs'.state = c5Run.prevState ∧ rs'.best_energy = c5Run.best_energy :=
  ⟨Or.inl rfl, rfl, c2_rejects,
    revert_missing_raises c2Problem c1Params (fun _ => (1 : ℝ) / 2) c5Run
      (Or.inl rfl) rfl c2_rejects⟩

/-! C4.  The returned best energy never exceeds the initial energy. -/

lemma updateReset_best {σ : Type} (ps : AnnealerParams) (rs : RunState σ) :
    (updateReset ps rs).best_energy = rs.best_energy := by
  unfold updateReset
  split <;> rfl

/-- A completed annealStep can only lower the best energy: any bound on the
incoming best energy still bounds the outgoing one. -/
lemma annealStep_best_mono {σ : Type} {P : Problem σ} {ps : AnnealerParams}
    {u : ℕ → ℝ} {rs rs' : RunState σ} {B : ℝ}
    (h : annealStep P ps u rs = .ok rs') (hB : rs.best_energy ≤ B) :
    rs'.best_energy ≤ B := by
  unfold annealStep at h
  dsimp only at h
  repeat' split at h
  all_goals cases h
  all_goals dsimp only
  all_goals first
    | exact hB
    | linarith

lemma runSteps_best_mono {σ : Type} (P : Problem σ) (ps : AnnealerParams)
    (u : ℕ → ℝ) (B : ℝ) :
    ∀ (n : ℕ) (rs rs' : RunState σ), rs.best_energy ≤ B →
      runSteps P ps u n rs = .ok rs' → rs'.best_energy ≤ B := by
  intro n
  induction n with
  | zero =>
    intro rs rs' hB h
    unfold runSteps at h
    cases h
    exact hB
  | succ n ih =>
    intro rs rs' hB h
    unfold runSteps at h
    split at h
    · simp at h
    · rename_i rs1 heq
      refine ih _ _ ?_ h
      rw [updateReset_best]
      exact annealStep_best_mono heq hB

/-- C4: the bound best_energy <= initial energy is an invariant of the whole
loop (first conjunct: any upper bound on the best energy is preserved by any
number of completed iterations), and consequently every completed run of
anneal returns a best energy at most the energy of the initial state
computed before any move - the best pair starts at the initial state, so a
run can only improve or tie the starting energy. -/
theorem anneal_best_le_initial {σ : Type} (P : Problem σ) (p : AnnealerParams)
    (u : ℕ → ℝ) :
    (∀ (B : ℝ) (n : ℕ) (rs rs' : RunState σ), rs.best_energy ≤ B →
        runSteps P p u n rs = .ok rs' → rs'.best_energy ≤ B) ∧
    (∀ (a : Annealer σ) (bs : σ) (be : ℝ),
        (anneal a P u (some p)).result = .ok (bs, be) → be ≤ P.energy a.state) := by
  refine ⟨fun B n rs rs' => runSteps_best_mono P p u B n rs rs', ?_⟩
  intro a bs be h
  unfold anneal at h
  dsimp only at h
  repeat' split at h
  all_goals dsimp only at h
  all_goals simp at h
  rename_i x1 rs1 heq1 x2 pc heqc
  obtain ⟨h1, h2⟩ := h
  subst h2
  exact runSteps_best_mono P p u (P.energy a.state) p.steps _ rs1 (le_refl _) heq1

/-- A core with the default parameter record of __init__ and initial state
0; used by C4. -/
noncomputable def c4Annealer : Annealer ℝ :=
  { params := { steps := 50000, tmax := 25000, tmin := 2.5 }, state := 0 }

/-- A problem whose moves lower the state and the energy by 1; used by
C4. -/
noncomputable def c4Problem : Problem ℝ :=
  { move := fun _ s => (s - 1, -1), energy := fun s => s, revert := none }

/-- A one-step parameter record with tracing and progress updates off; used
by C4. -/
def c4Params : AnnealerParams :=
  { steps := 1, tmax := 1, tmin := 1, updates := 0, output_file := "" }

/-- C4, witness: a concrete one-step run completes with best energy -1,
which the theorem bounds by the initial energy 0. -/
theorem anneal_best_le_initial_witness :
    (anneal c4Annealer c4Problem (fun _ => 0) (some c4Params)).result
      = .ok (-1, -1) ∧
    (-1 : ℝ) ≤ c4Problem.energy c4Annealer.state :=
  have heval : (anneal c4Annealer c4Problem (fun _ => 0) (some c4Params)).result
      = .ok (-1, -1) := by
    norm_num [anneal, runSteps, updateReset, annealStep, copy_state,
      metropolisReject, c4Annealer, c4Problem, c4Params]
  ⟨heval,
    (anneal_best_le_initial c4Problem c4Params (fun _ => 0)).2 c4Annealer
      (-1) (-1) heval⟩

/-! C6.  Configuration errors surface immediately. -/

/-- C6: copy_state raises RuntimeError for every strategy other than the
three recognised ones, and anneal with tmin <= 0 raises its configuration
Exception immediately: the result is the error, the core's state, best_state
and best_energy are unchanged, and the outcome is identical for any problem
capability and random stream - no move, energy or temperature computation is
consulted. -/
theorem config_errors_immediate (σ : Type) :
    (∀ (c : String) (s : σ), ¬ validStrategy c →
        copy_state c s = .error .runtimeError) ∧
    (∀ (a : Annealer σ) (P P' : Problem σ) (u u' : ℕ → ℝ) (p : AnnealerParams),
      p.tmin ≤ 0 →
        (anneal a P u (some p)).result = .error .exception ∧
        (anneal a P u (some p)).core.state = a.state ∧
        (anneal a P u (some p)).core.best_state = a.best_state ∧
        (anneal a P u (some p)).core.best_energy = a.best_energy ∧
        anneal a P u (some p) = anneal a P' u' (some p)) := by
  constructor
  · intro c s hc
    unfold validStrategy at hc
    push_neg at hc
    obtain ⟨h1, h2, h3⟩ := hc
    unfold copy_state
    rw [if_neg h1, if_neg h2, if_neg h3]
  · intro a P P' u u' p hp
    have key : ∀ (Q : Problem σ) (v : ℕ → ℝ), anneal a Q v (some p) =
        { events := if p.output_file ≠ "" then [FileEvent.opened, FileEvent.header]
            else []
          core := { a with params := p }
          result := .error .exception } := by
      intro Q v
      unfold anneal
      dsimp only
      rw [if_pos hp]
    rw [key P u, key P' u']
    exact ⟨rfl, rfl, rfl, rfl, rfl⟩

/-- A parameter record with tmin = 0; used by C6. -/
def c6Params : AnnealerParams := { steps := 10, tmax := 2, tmin := 0 }

/-- A core over integer states; used by C6. -/
noncomputable def c6Annealer : Annealer ℤ :=
  { params := { steps := 1, tmax := 1, tmin := 1 }, state := 5 }

/-- One problem capability; used by C6. -/
noncomputable def c6Problem : Problem ℤ :=
  { move := fun _ s => (s, 1), energy := fun s => (s : ℝ) }

/-- A second, different problem capability, to witness that the tmin error
does not depend on the problem; used by C6. -/
noncomputable def c6Problem2 : Problem ℤ :=
  { move := fun _ s => (s + 1, -1), energy := fun _ => 0 }

/-- C6, witness: an unrecognised strategy "shallow" and a tmin = 0 run. -/
theorem config_errors_immediate_witness :
    (¬ validStrategy "shallow" ∧
      copy_state "shallow" (5 : ℤ) = .error .runtimeError) ∧
    (c6Params.tmin ≤ 0 ∧
      ((anneal c6Annealer c6Problem (fun _ => 0) (some c6Params)).result
          = .error .exception ∧
        (anneal c6Annealer c6Problem (fun _ => 0) (some c6Params)).core.state
          = c6Annealer.state ∧
        (anneal c6Annealer c6Problem (fun _ => 0) (some c6Params)).core.best_state
          = c6Annealer.best_state ∧
        (anneal c6Annealer c6Problem (fun _ => 0) (some c6Params)).core.best_energy
          = c6Annealer.best_energy ∧
        anneal c6Annealer c6Problem (fun _ => 0) (some c6Params)
          = anneal c6Annealer c6Problem2 (fun _ => 1) (some c6Params))) :=
  ⟨⟨by decide, (config_errors_immediate ℤ).1 "shallow" 5 (by decide)⟩,
    ⟨by norm_num [c6Params],
      (config_errors_immediate ℤ).2 c6Annealer c6Problem c6Problem2
        (fun _ => 0) (fun _ => 1) c6Params (by norm_num [c6Params])⟩⟩

/-! C7.  The trace file is opened once and never explicitly closed. -/

/-- Recognises the opened event; used to count file opens. -/
def isOpenedEv : FileEvent → Bool
  | .opened => true
  | _ => false

/-- Recognises the closed event; used to count file closes. -/
def isClosedEv : FileEvent → Bool
  | .closed => true
  | _ => false

lemma updateReset_events {σ : Type} (ps : AnnealerParams) (rs : RunState σ) :
    (updateReset ps rs).events = rs.events := by
  unfold updateReset
  split <;> rfl

lemma annealStep_events_ok {σ : Type} {P : Problem σ} {ps : AnnealerParams}
    {u : ℕ → ℝ} {rs rs' : RunState σ} (f : FileEvent → Bool)
    (hf : ∀ st T pE nE bE acc, f (FileEvent.record st T pE nE bE acc) = false)
    (h : annealStep P ps u rs = .ok rs') :
    rs'.events.countP f = rs.events.countP f := by
  unfold annealStep at h
  dsimp only at h
  repeat' split at h
  all_goals cases h
  all_goals dsimp only
  all_goals simp [List.countP_append, List.countP_cons, hf]

lemma annealStep_events_err {σ : Type} {P : Problem σ} {ps : AnnealerParams}
    {u : ℕ → ℝ} {rs : RunState σ} {e : PyErr} {rs' : RunState σ}
    (f : FileEvent → Bool)
    (hf : ∀ st T pE nE bE acc, f (FileEvent.record st T pE nE bE acc) = false)
    (h : annealStep P ps u rs = .error (e, rs')) :
    rs'.events.countP f = rs.events.countP f := by
  unfold annealStep at h
  dsimp only at h
  repeat' split at h
  all_goals cases h
  all_goals dsimp only
  all_goals simp [List.countP_append, List.countP_cons, hf]

lemma runSteps_events {σ : Type} (P : Problem σ) (ps : AnnealerParams)
    (u : ℕ → ℝ) (f : FileEvent → Bool)
    (hf : ∀ st T pE nE bE acc, f (FileEvent.record st T pE nE bE acc) = false) :
    ∀ (n : ℕ) (rs : RunState σ),
      (∀ rs', runSteps P ps u n rs = .ok rs' →
        rs'.events.countP f = rs.events.countP f) ∧
      (∀ e rs', runSteps P ps u n rs = .error (e, rs') →
        rs'.events.countP f = rs.events.countP f) := by
  intro n
  induction n with
  | zero =>
    intro rs
    constructor
    · intro rs' h
      unfold runSteps at h
      cases h
      rfl
    · intro e rs' h
      unfold runSteps at h
      cases h
  | succ n ih =>
    intro rs
    constructor
    · intro rs' h
      unfold runSteps at h
      split at h
      · simp at h
      · rename_i rs1 heq
        have h2 := (ih (updateReset ps rs1)).1 rs' h
        rw [h2, updateReset_events]
        exact annealStep_events_ok f hf heq
    · intro e rs' h
      unfold runSteps at h
      split at h
      · rename_i ep heq
        cases h
        exact annealStep_events_err f hf heq
      · rename_i rs1 heq
        have h2 := (ih (updateReset ps rs1)).2 e rs' h
        rw [h2, updateReset_events]
        exact annealStep_events_ok f hf heq

lemma anneal_events_count {σ : Type} (a : Annealer σ) (P : Problem σ)
    (u : ℕ → ℝ) (p : AnnealerParams) (f : FileEvent → Bool)
    (hf : ∀ st T pE nE bE acc, f (FileEvent.record st T pE nE bE acc) = false) :
    (anneal a P u (some p)).events.countP f
      = (if p.output_file ≠ "" then [FileEvent.opened, FileEvent.header]
          else []).countP f := by
  unfold anneal
  dsimp only
  split
  · rfl
  · split
    · rfl
    · split
      · rfl
      · split
        · rfl
        · split
          · rename_i e rs heq
            exact (runSteps_events P p u f hf _ _).2 _ _ heq
          · rename_i rs heq
            split
            · exact (runSteps_events P p u f hf _ _).1 _ heq
            · exact (runSteps_events P p u f hf _ _).1 _ heq

/-- C7, amended: when a trace output path is configured the trace file is
opened exactly once at run start (and not at all otherwise), but anneal
never explicitly closes it: on every exit path - normal return, the tmin or
log-domain configuration errors, a copy-strategy error, or an exception
propagating out of a loop iteration - the emitted file events contain no
close.  The source has no close call and no scoped acquisition. -/
theorem trace_opened_once_never_closed {σ : Type} (a : Annealer σ)
    (P : Problem σ) (u : ℕ → ℝ) (p : AnnealerParams) :
    (anneal a P u (some p)).events.countP isClosedEv = 0 ∧
    (anneal a P u (some p)).events.countP isOpenedEv
      = if p.output_file ≠ "" then 1 else 0 := by
  rw [anneal_events_count a P u p isClosedEv (fun _ _ _ _ _ _ => rfl),
    anneal_events_count a P u p isOpenedEv (fun _ _ _ _ _ _ => rfl)]
  constructor
  · split <;> rfl
  · split <;> rfl

/-- A core with the default parameter record; used by C7. -/
noncomputable def c7Annealer : Annealer ℝ :=
  { params := { steps := 50000, tmax := 25000, tmin := 2.5 }, state := 0 }

/-- A trivial problem; used by C7. -/
noncomputable def c7Problem : Problem ℝ :=
  { move := fun _ s => (s, 0), energy := fun s => s, revert := none }

/-- Parameters with a trace path configured and a zero step budget, so the
run completes immediately after opening the trace file; used by C7. -/
def c7Params : AnnealerParams :=
  { steps := 0, tmax := 1, tmin := 1, updates := 0, output_file := "run.csv" }

/-- C7, counterexample: a run that completes normally with a configured
trace path leaves the event list at exactly [opened, header]: the file was
opened, but no close event exists on this (or any) exit path, contradicting
the claimed guaranteed close. -/
theorem trace_not_closed_counterexample :
    (∃ r, (anneal c7Annealer c7Problem (fun _ => 0) (some c7Params)).result
      = .ok r) ∧
    (anneal c7Annealer c7Problem (fun _ => 0) (some c7Params)).events
      = [FileEvent.opened, FileEvent.header] := by
  constructor
  · refine ⟨(0, 0), ?_⟩
    norm_num [anneal, runSteps, copy_state, c7Annealer, c7Problem, c7Params]
  · norm_num [anneal, runSteps, copy_state, c7Annealer, c7Problem, c7Params]
    intro h
    exact absurd h (by decide)

end Simanneal
